import Mathlib

/-!
Verification development for the saiki agent runtime core.

The definitions below are a shallow embedding of the TypeScript sources:
* `src/src/core/client/manager.ts` (`MCPManager`): client registry, the three
  reverse-lookup capability caches, `connectServer`, `initializeFromConfig`,
  `executeTool`, `getAllTools`, `removeClient`, `disconnectAll`;
* `src/src/ai/llm/services/anthropic.ts` (`AnthropicService.completeTask`
  driving loop and the `maxTokensWithMargin` budget computation);
* `src/src/core/llm/services/vercel.ts` (`VercelLLMService.formatTools`
  execute wrapper);
* `createMessageManager` (budget computation, same file region as the OpenAI
  formatter source).

JavaScript `Map` objects are embedded as association lists with unique keys
(`SMap`), `Map.set` keeping the position of an existing key and appending a
new one, as V8 insertion order does.  Promise-based code is embedded as
explicit state passing; the parallel fan-out of `initializeFromConfig` is
sequentialized (each connection attempt only touches its own name, so the
join result is interleaving-independent).  Fallible calls return `Except`.
`IMCPClient`/`MCPClient` instances (their source is outside `src/`) are
modelled from the spec as behaviour tables: connect outcome, discovered
tools/prompts/resources, and tool-call results, indexed by allocation order.
-/

namespace Saiki

/-- Association-list embedding of a JS `Map` with `String` keys. -/
abbrev SMap (β : Type) := List (String × β)

/-- `Map.get`: first (unique) binding of the key. -/
def mget {β : Type} : SMap β → String → Option β
  | [], _ => none
  | (k1, v) :: m, k => if k1 = k then some v else mget m k

/-- `Map.has`. -/
def mcontains {β : Type} : SMap β → String → Bool
  | [], _ => false
  | (k1, _) :: m, k => k1 = k || mcontains m k

/-- `Map.set`: replace in place if the key exists, else append. -/
def mset {β : Type} : SMap β → String → β → SMap β
  | [], k, v => [(k, v)]
  | (k1, v1) :: m, k, v => if k1 = k then (k, v) :: m else (k1, v1) :: mset m k v

/-- `Map.delete` (also `delete obj[k]` on plain objects). -/
def mdel {β : Type} : SMap β → String → SMap β
  | [], _ => []
  | (k1, v1) :: m, k => if k1 = k then mdel m k else (k1, v1) :: mdel m k

/-- Tool definition as cached/returned by `getTools` (schema kept opaque). -/
structure ToolDef where
  description : String
deriving Repr, DecidableEq

/-- Behaviour table of one `MCPClient` instance (the class itself lives
outside `src/`, so it is modelled from the spec as an abstract Transport
Connection): the outcome of `connect`, of capability discovery
(`getTools`/`listPrompts`/`listResources`), and of `callTool`. -/
structure ClientBehavior where
  connectOk : Bool
  connectErr : String
  toolsOk : Bool
  tools : SMap ToolDef
  toolsErr : String
  promptsOk : Bool
  prompts : List String
  resourcesOk : Bool
  resources : List String
  callTool : String → String → String

/-- The world a manager run happens in: the behaviour of the i-th `MCPClient`
allocated by `connectServer` (`new MCPClient()`), and the confirmation
provider `requestConfirmation({toolName, args, sessionId?})`. -/
structure ManagerEnv where
  client : Nat → ClientBehavior
  confirm : String → String → Option String → Bool

/-- Mutable fields of `MCPManager` (`manager.ts` lines 40-45), plus an
allocation counter identifying `MCPClient` objects (reference identity is
needed because `clearClientCache` compares cache values with `===`). -/
structure ManagerState where
  clients : SMap Nat
  connectionErrors : SMap String
  toolToClientMap : SMap Nat
  promptToClientMap : SMap Nat
  resourceToClientMap : SMap Nat
  nextClientId : Nat
deriving Repr, DecidableEq

/-- A fresh `new MCPManager()`. -/
def initialManagerState : ManagerState :=
  { clients := [], connectionErrors := [], toolToClientMap := [],
    promptToClientMap := [], resourceToClientMap := [], nextClientId := 0 }

/-- `MCPManager.clearClientCache` (manager.ts lines 68-82): looks the client
up in `clients` and, only when found, deletes every entry of the three cache
maps whose value is that client object. -/
def clearClientCache (s : ManagerState) (clientName : String) : ManagerState :=
  match mget s.clients clientName with
  | none => s
  | some c =>
    { s with
      toolToClientMap := s.toolToClientMap.filter (fun p => p.2 ≠ c),
      promptToClientMap := s.promptToClientMap.filter (fun p => p.2 ≠ c),
      resourceToClientMap := s.resourceToClientMap.filter (fun p => p.2 ≠ c) }

/-- `MCPManager.registerClient` (lines 57-66): clear any cache entries of a
previously registered client of the same name, store the client, drop the
recorded connection error for the name. -/
def registerClient (s : ManagerState) (name : String) (c : Nat) : ManagerState :=
  let s1 := clearClientCache s name
  { s1 with
    clients := mset s1.clients name c,
    connectionErrors := mdel s1.connectionErrors name }

/-- Fold of `toolToClientMap.set(toolName, client)` over discovered tools. -/
def cacheTools (m : SMap Nat) (tools : SMap ToolDef) (c : Nat) : SMap Nat :=
  tools.foldl (fun acc p => mset acc p.1 c) m

/-- Fold of `map.set(name, client)` over discovered prompt/resource names. -/
def cacheNames (m : SMap Nat) (names : List String) (c : Nat) : SMap Nat :=
  names.foldl (fun acc n => mset acc n c) m

/-- `MCPManager.updateClientCache` (lines 84-121): if `getTools` fails,
return early caching nothing; otherwise cache the tools, then the prompts and
the resources, each silently skipped when its discovery call fails. -/
def updateClientCache (env : ManagerEnv) (s : ManagerState) (c : Nat) : ManagerState :=
  let b := env.client c
  if b.toolsOk then
    let s1 := { s with toolToClientMap := cacheTools s.toolToClientMap b.tools c }
    let s2 :=
      if b.promptsOk then
        { s1 with promptToClientMap := cacheNames s1.promptToClientMap b.prompts c }
      else s1
    if b.resourcesOk then
      { s2 with resourceToClientMap := cacheNames s2.resourceToClientMap b.resources c }
    else s2
  else s

/-- Connection mode of a server config (`'strict' | 'lenient'`). -/
inductive ConnectionMode
  | strict
  | lenient
deriving Repr, DecidableEq

/-- `McpServerConfig`: only the field `initializeFromConfig` inspects;
`connectionMode` is optional in the schema. -/
structure McpServerConfig where
  connectionMode : Option ConnectionMode
deriving Repr, DecidableEq

/-- `config.connectionMode || 'lenient'` (manager.ts line 253). -/
def effectiveMode (cfg : McpServerConfig) : ConnectionMode :=
  cfg.connectionMode.getD ConnectionMode.lenient

/-- `MCPManager.connectServer` (lines 296-316): no-op when the name is
already registered; otherwise allocate a fresh `MCPClient`, and either
register it and publish its capabilities, or record the error keyed by the
name, delete the name from `clients`, and rethrow. -/
def connectServer (env : ManagerEnv) (s : ManagerState) (name : String)
    (_cfg : McpServerConfig) : Except String Unit × ManagerState :=
  if mcontains s.clients name then
    (Except.ok (), s)
  else
    let c := s.nextClientId
    let s0 := { s with nextClientId := c + 1 }
    let b := env.client c
    if b.connectOk then
      let s1 := registerClient s0 name c
      let s2 := updateClientCache env s1 c
      (Except.ok (), s2)
    else
      let s1 := { s0 with
        connectionErrors := mset s0.connectionErrors name b.connectErr,
        clients := mdel s0.clients name }
      (Except.error ("Failed to connect to new server " ++ name ++ ": " ++ b.connectErr), s1)

/-- Accumulated data of one `initializeFromConfig` run: the manager state and
the `successfulConnections` / `strictServers` / `lenientServers` arrays of
the source, plus the list of names whose connection was attempted. -/
structure InitRun where
  state : ManagerState
  successful : List String
  strictServers : List String
  lenientServers : List String
  attempted : List String
deriving Repr, DecidableEq

/-- One iteration of the loop in `initializeFromConfig` (lines 252-270):
categorize the server by its effective mode, attempt the connection
(`connectServer` with its error absorbed by the `.catch`), and record the
name in `successfulConnections` when it resolved. -/
def initStep (env : ManagerEnv) (r : InitRun) (entry : String × McpServerConfig) : InitRun :=
  let name := entry.1
  let cfg := entry.2
  let r1 :=
    if effectiveMode cfg = ConnectionMode.strict then
      { r with strictServers := r.strictServers ++ [name] }
    else
      { r with lenientServers := r.lenientServers ++ [name] }
  let out := connectServer env r1.state name cfg
  let r2 := { r1 with state := out.2, attempted := r1.attempted ++ [name] }
  match out.1 with
  | Except.ok _ => { r2 with successful := r2.successful ++ [name] }
  | Except.error _ => r2

/-- The whole fan-out-and-join of `initializeFromConfig`, sequentialized. -/
def initRun (env : ManagerEnv) (s : ManagerState) (cfgs : SMap McpServerConfig) : InitRun :=
  cfgs.foldl (initStep env) ⟨s, [], [], [], []⟩

/-- `strictServers.filter((name) => !successfulConnections.includes(name))`
(lines 275-277). -/
def failedStrictServers (r : InitRun) : List String :=
  r.strictServers.filter (fun n => !(r.successful.contains n))

/-- Attempted names that did not end up in `successfulConnections`. -/
def failedServers (r : InitRun) : List String :=
  r.attempted.filter (fun n => !(r.successful.contains n))

/-- The `strictErrors` string of lines 279-281: `name: cause` joined by `; `,
with `Unknown error` when no cause was recorded. -/
def strictErrorsMsg (failed : List String) (errs : SMap String) : String :=
  String.intercalate "; " (failed.map (fun n => n ++ ": " ++ ((mget errs n).getD "Unknown error")))

/-- `MCPManager.initializeFromConfig` (lines 239-287): empty config returns
immediately; otherwise run every connection attempt, then throw an aggregate
error iff some strict server is missing from `successfulConnections`. -/
def initializeFromConfig (env : ManagerEnv) (s : ManagerState)
    (cfgs : SMap McpServerConfig) : Except String Unit × ManagerState :=
  if cfgs.isEmpty then
    (Except.ok (), s)
  else
    let r := initRun env s cfgs
    let failed := failedStrictServers r
    if failed.isEmpty then
      (Except.ok (), r.state)
    else
      (Except.error ("Failed to connect to required strict servers: "
        ++ strictErrorsMsg failed r.state.connectionErrors), r.state)

/-- Errors of `MCPManager.executeTool`: the `No client found for tool` throw
and `ToolExecutionDeniedError`. -/
inductive ToolError
  | toolNotFound (toolName : String)
  | executionDenied (toolName : String) (sessionId : Option String)
deriving Repr, DecidableEq

/-- Observable effects of one `executeTool` call, in order. -/
inductive ExecEvent
  | confirmRequest (toolName args : String) (sessionId : Option String)
  | transportCall (client : Nat) (toolName args : String)
deriving Repr, DecidableEq

/-- `MCPManager.executeTool` (lines 157-171): resolve the owning client from
`toolToClientMap`; absent means `ToolNotFound`; otherwise ask the
confirmation provider once, fail with the denial error without any transport
call when refused, and forward to `client.callTool` only when approved.  The
manager state is not mutated; the event list records the side effects. -/
def executeTool (env : ManagerEnv) (s : ManagerState) (toolName args : String)
    (sessionId : Option String) : Except ToolError String × List ExecEvent :=
  match mget s.toolToClientMap toolName with
  | none => (Except.error (ToolError.toolNotFound toolName), [])
  | some c =>
    let approved := env.confirm toolName args sessionId
    if approved then
      (Except.ok ((env.client c).callTool toolName args),
       [ExecEvent.confirmRequest toolName args sessionId,
        ExecEvent.transportCall c toolName args])
    else
      (Except.error (ToolError.executionDenied toolName sessionId),
       [ExecEvent.confirmRequest toolName args sessionId])

/-- `MCPManager.getAllTools` (lines 127-139): walk the tool cache, re-fetch
each owning client's tools, and keep the entry when the client still reports
the cached name.  A `getTools` rejection propagates. -/
def getAllTools (env : ManagerEnv) (s : ManagerState) : Except String (SMap ToolDef) :=
  s.toolToClientMap.foldlM
    (fun acc p =>
      let b := env.client p.2
      if b.toolsOk then
        match mget b.tools p.1 with
        | some d => Except.ok (mset acc p.1 d)
        | none => Except.ok acc
      else Except.error b.toolsErr)
    []

/-- Spec-side reading of the `getAllTools` contract (claim C6 wording): the
union of the currently reported tools of every still-registered client,
keyed by tool name. -/
def specStillConnectedTools (env : ManagerEnv) (s : ManagerState) : SMap ToolDef :=
  s.clients.foldl
    (fun acc p => (env.client p.2).tools.foldl (fun a q => mset a q.1 q.2) acc)
    []

/-- `MCPManager.removeClient` (lines 338-361): when the name is registered,
disconnect (errors logged, not propagated), delete it from `clients`, then
call `clearClientCache`; finally drop any recorded connection error for the
name.  Note the source deletes the name from `clients` before calling
`clearClientCache`, whose lookup of the name therefore fails. -/
def removeClient (s : ManagerState) (name : String) : ManagerState :=
  let s1 :=
    match mget s.clients name with
    | none => s
    | some _ =>
      let sA := { s with clients := mdel s.clients name }
      clearClientCache sA name
  if (mget s1.connectionErrors name).isSome then
    { s1 with connectionErrors := mdel s1.connectionErrors name }
  else s1

/-- `MCPManager.disconnectAll` (lines 366-388): disconnect every client
(errors logged, not propagated) and clear every map. -/
def disconnectAll (s : ManagerState) : ManagerState :=
  { s with clients := [], connectionErrors := [], toolToClientMap := [],
           promptToClientMap := [], resourceToClientMap := [] }

/-! Embedding of the `AnthropicService.completeTask` driving loop
(`src/src/ai/llm/services/anthropic.ts` lines 62-196). -/

/-- A `tool_use` content block of an Anthropic response. -/
structure ToolUse where
  id : String
  name : String
  input : String
deriving Repr, DecidableEq

/-- One model response: concatenated text content and tool-use blocks. -/
structure ModelResponse where
  text : String
  toolUses : List ToolUse
deriving Repr, DecidableEq

/-- Outcome of one `anthropic.messages.create` call: a response, or a
rejection caught by the outer `catch` of `completeTask`. -/
inductive ApiOutcome
  | ok (r : ModelResponse)
  | apiError (msg : String)

/-- Payload passed to `messageManager.addToolResult`: the tool's result, or
the `{ error: message }` object built in the inner `catch`. -/
inductive ToolPayload
  | result (v : String)
  | errorResult (msg : String)
deriving Repr, DecidableEq

/-- Conversation units appended to the `MessageManager` by the loop. -/
inductive AMsg
  | user (text : String)
  | assistant (text : String) (toolCalls : List ToolUse)
  | toolResult (callId toolName : String) (payload : ToolPayload)
deriving Repr, DecidableEq

/-- World of one `completeTask` run: the response to the i-th API call, and
the outcome of `clientManager.executeTool(name, input)` (`errorResult` being
a throw — denial, timeout or transport failure — caught by the inner
`catch`). -/
structure AnthropicEnv where
  api : Nat → ApiOutcome
  execT : String → String → ToolPayload

/-- `const MAX_ITERATIONS = 10` (anthropic.ts line 76). -/
def MAX_ITERATIONS : Nat := 10

/-- What one `completeTask` call produces: the returned string, the messages
appended to the message manager, and how many API calls were made. -/
structure TaskResult where
  response : String
  messages : List AMsg
  apiCalls : Nat
deriving Repr, DecidableEq

/-- The tool-use handling block (lines 143-172): every tool use becomes an
`addToolResult` entry, a thrown execution error becoming the
`{ error: message }` payload instead of escaping. -/
def processToolUses (execT : String → String → ToolPayload) (msgs : List AMsg)
    (tus : List ToolUse) : List AMsg :=
  msgs ++ tus.map (fun tu => AMsg.toolResult tu.id tu.name (execT tu.name tu.input))

/-- The `while (iterationCount < MAX_ITERATIONS)` loop of `completeTask`
(lines 81-184), as recursion on the remaining iterations.  `calls` counts the
API calls already made (equal to the source's `iterationCount` at the top of
each pass); the post-loop fallback returns `fullResponse` or the max-iteration
notice, and an API rejection is turned into the `Error processing request`
return by the outer `catch`. -/
def completeTaskLoop (env : AnthropicEnv) :
    Nat → Nat → String → List AMsg → TaskResult
  | 0, calls, fullResponse, msgs =>
    { response :=
        if fullResponse = "" then
          "Reached maximum number of tool call iterations without a final response."
        else fullResponse,
      messages := msgs, apiCalls := calls }
  | fuel + 1, calls, fullResponse, msgs =>
    match env.api calls with
    | ApiOutcome.apiError m =>
      { response := "Error processing request: " ++ m,
        messages := msgs, apiCalls := calls + 1 }
    | ApiOutcome.ok r =>
      let msgs1 := msgs ++ [AMsg.assistant r.text r.toolUses]
      if r.toolUses.isEmpty then
        { response := fullResponse ++ r.text, messages := msgs1, apiCalls := calls + 1 }
      else
        let fullResponse1 :=
          if r.text = "" then fullResponse else fullResponse ++ r.text ++ "\n"
        let msgs2 := processToolUses env.execT msgs1 r.toolUses
        completeTaskLoop env fuel (calls + 1) fullResponse1 msgs2

/-- `AnthropicService.completeTask(userInput)`: append the user message and
drive the loop, starting with an empty accumulated response. -/
def completeTask (env : AnthropicEnv) (userInput : String) : TaskResult :=
  completeTaskLoop env MAX_ITERATIONS 0 "" [AMsg.user userInput]

/-! Embedding of the `VercelLLMService.formatTools` execute wrapper
(`src/src/core/llm/services/vercel.ts` lines 73-110). -/

/-- `ToolErrorCode` enum (tools error-codes source). -/
inductive ToolErrorCode
  | EXECUTION_DENIED
  | EXECUTION_TIMEOUT
  | EXECUTION_FAILED
  | CONFIRMATION_HANDLER_MISSING
  | CONFIRMATION_TIMEOUT
  | CONFIRMATION_CANCELLED
  | TOOL_NOT_FOUND
  | TOOL_INVALID_ARGS
  | TOOL_UNAUTHORIZED
  | CONFIG_INVALID
deriving Repr, DecidableEq

/-- Outcome of `toolManager.executeTool` as seen by the wrapper: a value, a
thrown `DextoRuntimeError` carrying a code, or any other thrown error. -/
inductive VercelToolOutcome
  | success (v : String)
  | runtimeError (code : ToolErrorCode) (msg : String)
  | otherError (msg : String)
deriving Repr, DecidableEq

/-- What the wrapper hands back to the Vercel SDK: the raw value, or an
ordinary result object `{ error, denied?, timeout? }` (absent flags are
`false` here). -/
inductive WrappedToolResult
  | value (v : String)
  | errorPayload (error : String) (denied : Bool) (timeout : Bool)
deriving Repr, DecidableEq

/-- The `execute` closure built by `formatTools`: catches every execution
error; `EXECUTION_DENIED` becomes `{ error, denied: true }`,
`CONFIRMATION_TIMEOUT` becomes `{ error, denied: true, timeout: true }`, and
any other failure becomes `{ error }`.  Total: no outcome escapes as an
exception. -/
def vercelExecuteWrap : VercelToolOutcome → WrappedToolResult
  | VercelToolOutcome.success v => WrappedToolResult.value v
  | VercelToolOutcome.runtimeError c m =>
    if c = ToolErrorCode.EXECUTION_DENIED then WrappedToolResult.errorPayload m true false
    else if c = ToolErrorCode.CONFIRMATION_TIMEOUT then WrappedToolResult.errorPayload m true true
    else WrappedToolResult.errorPayload m false false
  | VercelToolOutcome.otherError m => WrappedToolResult.errorPayload m false false

/-! Token-budget computations.  `Math.floor(x * 0.9)` on a known natural
registry maximum equals `x * 9 / 10` in natural division. -/

/-- `createMessageManager`: `maxTokens = Math.floor(registryMaxTokens * 0.9)`. -/
def createMessageManagerMaxTokens (registryMaxTokens : Nat) : Nat :=
  registryMaxTokens * 9 / 10

/-- `AnthropicService` constructor (anthropic.ts lines 37-38):
`maxTokensWithMargin = Math.floor(rawMaxTokens * 0.9)`. -/
def anthropicMaxTokensWithMargin (rawMaxTokens : Nat) : Nat :=
  rawMaxTokens * 9 / 10

/-! Concrete scenario worlds used by counterexamples and witnesses. -/

/-- A client that connects fine and advertises the single tool `t`. -/
def behOneTool : ClientBehavior :=
  { connectOk := true, connectErr := "",
    toolsOk := true, tools := [("t", { description := "d" })], toolsErr := "",
    promptsOk := false, prompts := [], resourcesOk := false, resources := [],
    callTool := fun _ _ => "ran" }

/-- A client whose `connect` rejects with `boom`. -/
def behConnectFail : ClientBehavior :=
  { connectOk := false, connectErr := "boom",
    toolsOk := false, tools := [], toolsErr := "",
    promptsOk := false, prompts := [], resourcesOk := false, resources := [],
    callTool := fun _ _ => "" }

/-- World where every allocated client is `behOneTool` and confirmation
always approves. -/
def envOneTool : ManagerEnv :=
  { client := fun _ => behOneTool, confirm := fun _ _ _ => true }

/-- State after `connectServer` for a server `a` owning tool `t`. -/
def stateAfterConnectA : ManagerState :=
  (connectServer envOneTool initialManagerState "a" { connectionMode := none }).2

/-- State after additionally calling `removeClient` for `a`. -/
def stateAfterRemoveA : ManagerState :=
  removeClient stateAfterConnectA "a"

/-- World of the spec scenario: the first allocated client (server `fs`)
fails to connect, the second (server `docs`) connects and owns tool `t`;
confirmation always approves. -/
def envFsDocs : ManagerEnv :=
  { client := fun i => if i = 0 then behConnectFail else behOneTool,
    confirm := fun _ _ _ => true }

/-- Configs of the scenario: `fs` strict, `docs` lenient. -/
def fsDocsConfigs : SMap McpServerConfig :=
  [("fs", { connectionMode := some ConnectionMode.strict }),
   ("docs", { connectionMode := some ConnectionMode.lenient })]

/-- The scenario run. -/
def fsDocsInit : Except String Unit × ManagerState :=
  initializeFromConfig envFsDocs initialManagerState fsDocsConfigs

/-! Basic lemmas about the map embedding. -/

theorem mget_mset_self {β : Type} (m : SMap β) (k : String) (v : β) :
    mget (mset m k v) k = some v := by
  induction m with
  | nil => simp [mset, mget]
  | cons p m ih =>
    by_cases h : p.1 = k
    · simp [mset, h, mget]
    · simp [mset, h, mget, ih]

theorem mget_mset_ne {β : Type} (m : SMap β) {k1 k : String} (h : k1 ≠ k) (v : β) :
    mget (mset m k1 v) k = mget m k := by
  induction m with
  | nil => simp [mset, mget, h]
  | cons p m ih =>
    by_cases hp : p.1 = k1
    · simp [mset, hp, mget, h]
    · simp [mset, hp, mget, ih]

theorem mget_mdel_self {β : Type} (m : SMap β) (k : String) :
    mget (mdel m k) k = none := by
  induction m with
  | nil => simp [mdel, mget]
  | cons p m ih =>
    by_cases h : p.1 = k
    · simp [mdel, h, ih]
    · simp [mdel, h, mget, ih]

theorem mget_mdel_ne {β : Type} (m : SMap β) {k1 k : String} (h : k1 ≠ k) :
    mget (mdel m k1) k = mget m k := by
  induction m with
  | nil => simp [mdel]
  | cons p m ih =>
    by_cases hp : p.1 = k1
    · simp [mdel, hp, mget, ih, h]
    · by_cases hk : p.1 = k
      · have hkk1 : k ≠ k1 := fun he => h he.symm
        simp [mdel, hp, mget, hk, hkk1]
      · simp [mdel, hp, mget, hk, ih]

theorem mcontains_eq_isSome {β : Type} (m : SMap β) (k : String) :
    mcontains m k = (mget m k).isSome := by
  induction m with
  | nil => simp [mcontains, mget]
  | cons p m ih =>
    by_cases h : p.1 = k
    · simp [mcontains, mget, h]
    · simp [mcontains, mget, h, ih]

theorem mget_cacheTools_of_not_mem (m : SMap Nat) (tools : SMap ToolDef) (c : Nat)
    {k : String} (h : k ∉ tools.map Prod.fst) :
    mget (cacheTools m tools c) k = mget m k := by
  induction tools generalizing m with
  | nil => simp [cacheTools]
  | cons p rest ih =>
    simp only [List.map_cons, List.mem_cons, not_or] at h
    have hstep : cacheTools m (p :: rest) c = cacheTools (mset m p.1 c) rest c := rfl
    rw [hstep, ih (mset m p.1 c) h.2, mget_mset_ne m (fun hpk => h.1 hpk.symm) c]

theorem mget_cacheTools_of_mem (m : SMap Nat) (tools : SMap ToolDef) (c : Nat)
    {k : String} (h : k ∈ tools.map Prod.fst) :
    mget (cacheTools m tools c) k = some c := by
  induction tools generalizing m with
  | nil => simp at h
  | cons p rest ih =>
    have hstep : cacheTools m (p :: rest) c = cacheTools (mset m p.1 c) rest c := rfl
    by_cases hr : k ∈ rest.map Prod.fst
    · rw [hstep, ih (mset m p.1 c) hr]
    · simp only [List.map_cons, List.mem_cons] at h
      have hk : p.1 = k := by
        rcases h with h | h
        · exact h.symm
        · exact absurd h hr
      rw [hstep, mget_cacheTools_of_not_mem (mset m p.1 c) rest c hr, hk,
        mget_mset_self m k c]

/-! Structural lemmas about the manager operations. -/

theorem clearClientCache_clients (s : ManagerState) (n : String) :
    (clearClientCache s n).clients = s.clients := by
  unfold clearClientCache
  cases mget s.clients n <;> rfl

theorem clearClientCache_connectionErrors (s : ManagerState) (n : String) :
    (clearClientCache s n).connectionErrors = s.connectionErrors := by
  unfold clearClientCache
  cases mget s.clients n <;> rfl

theorem updateClientCache_connectionErrors (env : ManagerEnv) (s : ManagerState) (c : Nat) :
    (updateClientCache env s c).connectionErrors = s.connectionErrors := by
  unfold updateClientCache
  by_cases h1 : (env.client c).toolsOk <;>
    by_cases h2 : (env.client c).promptsOk <;>
    by_cases h3 : (env.client c).resourcesOk <;>
    simp [h1, h2, h3]

theorem updateClientCache_clients (env : ManagerEnv) (s : ManagerState) (c : Nat) :
    (updateClientCache env s c).clients = s.clients := by
  unfold updateClientCache
  by_cases h1 : (env.client c).toolsOk <;>
    by_cases h2 : (env.client c).promptsOk <;>
    by_cases h3 : (env.client c).resourcesOk <;>
    simp [h1, h2, h3]

theorem connectServer_error_records (env : ManagerEnv) (s : ManagerState)
    (name : String) (cfg : McpServerConfig) {msg : String}
    (h : (connectServer env s name cfg).1 = Except.error msg) :
    mget (connectServer env s name cfg).2.connectionErrors name
      = some (env.client s.nextClientId).connectErr := by
  unfold connectServer at h ⊢
  by_cases hc : mcontains s.clients name
  · simp [hc] at h
  · by_cases hok : (env.client s.nextClientId).connectOk
    · simp [hc, hok] at h
    · simp only [hc, Bool.false_eq_true, if_false, hok, if_true]
      exact mget_mset_self _ name _

theorem connectServer_preserves_error_ne (env : ManagerEnv) (s : ManagerState)
    (name : String) (cfg : McpServerConfig) {n : String} (hne : n ≠ name) :
    mget (connectServer env s name cfg).2.connectionErrors n
      = mget s.connectionErrors n := by
  unfold connectServer
  by_cases hc : mcontains s.clients name
  · simp [hc]
  · by_cases hok : (env.client s.nextClientId).connectOk
    · simp only [hc, Bool.false_eq_true, if_false, hok, if_true]
      rw [updateClientCache_connectionErrors]
      unfold registerClient
      simp only
      rw [mget_mdel_ne _ (fun he => hne he.symm), clearClientCache_connectionErrors]
    · simp only [hc, Bool.false_eq_true, if_false, hok, if_true]
      exact mget_mset_ne _ (fun he => hne he.symm) _

theorem initStep_state (env : ManagerEnv) (r : InitRun) (e : String × McpServerConfig) :
    (initStep env r e).state = (connectServer env r.state e.1 e.2).2 := by
  unfold initStep
  by_cases hm : effectiveMode e.2 = ConnectionMode.strict <;>
    · simp only [hm, if_true, Bool.false_eq_true, if_false]
      cases (connectServer env r.state e.1 e.2).1 <;> rfl

theorem initStep_attempted (env : ManagerEnv) (r : InitRun) (e : String × McpServerConfig) :
    (initStep env r e).attempted = r.attempted ++ [e.1] := by
  unfold initStep
  by_cases hm : effectiveMode e.2 = ConnectionMode.strict <;>
    · simp only [hm, if_true, Bool.false_eq_true, if_false]
      cases (connectServer env r.state e.1 e.2).1 <;> rfl

theorem initStep_successful (env : ManagerEnv) (r : InitRun) (e : String × McpServerConfig) :
    (initStep env r e).successful =
      r.successful ++
        (match (connectServer env r.state e.1 e.2).1 with
          | Except.ok _ => [e.1]
          | Except.error _ => []) := by
  unfold initStep
  by_cases hm : effectiveMode e.2 = ConnectionMode.strict <;>
    · simp only [hm, if_true, Bool.false_eq_true, if_false]
      cases (connectServer env r.state e.1 e.2).1 <;> simp

theorem initStep_strictServers (env : ManagerEnv) (r : InitRun) (e : String × McpServerConfig) :
    (initStep env r e).strictServers =
      if effectiveMode e.2 = ConnectionMode.strict then r.strictServers ++ [e.1]
      else r.strictServers := by
  unfold initStep
  by_cases hm : effectiveMode e.2 = ConnectionMode.strict <;>
    · simp only [hm, if_true, Bool.false_eq_true, if_false]
      cases (connectServer env r.state e.1 e.2).1 <;> simp [hm]

theorem foldl_initStep_attempted (env : ManagerEnv) (cfgs : SMap McpServerConfig)
    (r : InitRun) :
    (cfgs.foldl (initStep env) r).attempted = r.attempted ++ cfgs.map Prod.fst := by
  induction cfgs generalizing r with
  | nil => simp
  | cons e rest ih =>
    rw [List.foldl_cons, ih, initStep_attempted]
    simp

theorem foldl_initStep_strict_mem (env : ManagerEnv) (cfgs : SMap McpServerConfig)
    (r : InitRun) (n : String) :
    n ∈ (cfgs.foldl (initStep env) r).strictServers ↔
      n ∈ r.strictServers ∨
        ∃ cfg, (n, cfg) ∈ cfgs ∧ effectiveMode cfg = ConnectionMode.strict := by
  induction cfgs generalizing r with
  | nil => simp
  | cons e rest ih =>
    rw [List.foldl_cons, ih, initStep_strictServers]
    by_cases hm : effectiveMode e.2 = ConnectionMode.strict
    · rw [if_pos hm]
      constructor
      · rintro (h | ⟨cfg, hc, hmode⟩)
        · rcases List.mem_append.1 h with h | h
          · exact Or.inl h
          · have hn : n = e.1 := List.mem_singleton.1 h
            exact Or.inr ⟨e.2, by rw [hn]; exact List.mem_cons_self e rest, hm⟩
        · exact Or.inr ⟨cfg, List.mem_cons_of_mem e hc, hmode⟩
      · rintro (h | ⟨cfg, hc, hmode⟩)
        · exact Or.inl (List.mem_append_left _ h)
        · rcases List.mem_cons.1 hc with hc | hc
          · have hn : n = e.1 := congrArg Prod.fst hc
            exact Or.inl (List.mem_append_right _ (List.mem_singleton.2 hn))
          · exact Or.inr ⟨cfg, hc, hmode⟩
    · rw [if_neg hm]
      constructor
      · rintro (h | ⟨cfg, hc, hmode⟩)
        · exact Or.inl h
        · exact Or.inr ⟨cfg, List.mem_cons_of_mem e hc, hmode⟩
      · rintro (h | ⟨cfg, hc, hmode⟩)
        · exact Or.inl h
        · rcases List.mem_cons.1 hc with hc | hc
          · have hcfg : cfg = e.2 := congrArg Prod.snd hc
            exact absurd (hcfg ▸ hmode) hm
          · exact Or.inr ⟨cfg, hc, hmode⟩

theorem foldl_initStep_successful_mono (env : ManagerEnv) (cfgs : SMap McpServerConfig)
    (r : InitRun) {n : String} (h : n ∈ r.successful) :
    n ∈ (cfgs.foldl (initStep env) r).successful := by
  induction cfgs generalizing r with
  | nil => exact h
  | cons e rest ih =>
    rw [List.foldl_cons]
    exact ih _ (by rw [initStep_successful]; exact List.mem_append_left _ h)

theorem foldl_initStep_preserves_error (env : ManagerEnv) (cfgs : SMap McpServerConfig)
    (r : InitRun) {n : String} (h : ∀ e ∈ cfgs, e.1 ≠ n) :
    mget (cfgs.foldl (initStep env) r).state.connectionErrors n
      = mget r.state.connectionErrors n := by
  induction cfgs generalizing r with
  | nil => rfl
  | cons e rest ih =>
    rw [List.foldl_cons, ih _ (fun f hf => h f (List.mem_cons_of_mem e hf)),
      initStep_state]
    exact connectServer_preserves_error_ne env r.state e.1 e.2
      (fun he => h e (List.mem_cons_self e rest) he.symm)

theorem foldl_initStep_error_recorded (env : ManagerEnv) (cfgs : SMap McpServerConfig)
    (r0 : InitRun) (n : String) (hnd : (cfgs.map Prod.fst).Nodup)
    (hmem : n ∈ cfgs.map Prod.fst)
    (hns : n ∉ (cfgs.foldl (initStep env) r0).successful) :
    ∃ e, mget (cfgs.foldl (initStep env) r0).state.connectionErrors n = some e := by
  induction cfgs generalizing r0 with
  | nil => simp at hmem
  | cons e rest ih =>
    rw [List.map_cons, List.nodup_cons] at hnd
    rw [List.map_cons, List.mem_cons] at hmem
    rw [List.foldl_cons] at hns ⊢
    rcases hmem with hmem | hmem
    · -- this step handles `n`; by nodup no later entry can
      have hrest_ne : ∀ f ∈ rest, f.1 ≠ n := by
        intro f hf he
        exact hnd.1 (hmem ▸ he ▸ List.mem_map_of_mem Prod.fst hf)
      have hstep_ns : n ∉ (initStep env r0 e).successful := fun hmem2 =>
        hns (foldl_initStep_successful_mono env rest _ hmem2)
      rw [initStep_successful] at hstep_ns
      cases hout : (connectServer env r0.state e.1 e.2).1 with
      | ok u =>
        exact absurd (List.mem_append_right _ (by rw [hout]; simp [hmem])) hstep_ns
      | error msg =>
        refine ⟨(env.client r0.state.nextClientId).connectErr, ?_⟩
        rw [foldl_initStep_preserves_error env rest _ hrest_ne, initStep_state, hmem]
        exact connectServer_error_records env r0.state e.1 e.2 hout
    · exact ih (initStep env r0 e) hnd.2 hmem hns

/-! Lemmas about the `completeTask` driving loop. -/

theorem completeTaskLoop_succ_apiError (env : AnthropicEnv) (fuel calls : Nat)
    (fr : String) (msgs : List AMsg) {m : String}
    (hapi : env.api calls = ApiOutcome.apiError m) :
    completeTaskLoop env (fuel + 1) calls fr msgs =
      { response := "Error processing request: " ++ m, messages := msgs,
        apiCalls := calls + 1 } := by
  conv_lhs => unfold completeTaskLoop
  rw [hapi]

theorem completeTaskLoop_succ_done (env : AnthropicEnv) (fuel calls : Nat)
    (fr : String) (msgs : List AMsg) {r : ModelResponse}
    (hapi : env.api calls = ApiOutcome.ok r) (hemp : r.toolUses.isEmpty) :
    completeTaskLoop env (fuel + 1) calls fr msgs =
      { response := fr ++ r.text,
        messages := msgs ++ [AMsg.assistant r.text r.toolUses],
        apiCalls := calls + 1 } := by
  conv_lhs => unfold completeTaskLoop
  rw [hapi]
  simp [hemp]

theorem completeTaskLoop_succ_tools (env : AnthropicEnv) (fuel calls : Nat)
    (fr : String) (msgs : List AMsg) {r : ModelResponse}
    (hapi : env.api calls = ApiOutcome.ok r) (hne : ¬ r.toolUses.isEmpty) :
    completeTaskLoop env (fuel + 1) calls fr msgs =
      completeTaskLoop env fuel (calls + 1)
        (if r.text = "" then fr else fr ++ r.text ++ "\n")
        (processToolUses env.execT (msgs ++ [AMsg.assistant r.text r.toolUses])
          r.toolUses) := by
  conv_lhs => unfold completeTaskLoop
  rw [hapi]
  simp [hne]

theorem completeTaskLoop_apiCalls_le (env : AnthropicEnv) (fuel : Nat) :
    ∀ (calls : Nat) (fr : String) (msgs : List AMsg),
      (completeTaskLoop env fuel calls fr msgs).apiCalls ≤ calls + fuel := by
  induction fuel with
  | zero => intro calls fr msgs; simp [completeTaskLoop]
  | succ fuel ih =>
    intro calls fr msgs
    cases hapi : env.api calls with
    | apiError m =>
      rw [completeTaskLoop_succ_apiError env fuel calls fr msgs hapi]
      simp only
      omega
    | ok r =>
      by_cases hemp : r.toolUses.isEmpty
      · rw [completeTaskLoop_succ_done env fuel calls fr msgs hapi hemp]
        simp only
        omega
      · rw [completeTaskLoop_succ_tools env fuel calls fr msgs hapi hemp]
        have := ih (calls + 1)
          (if r.text = "" then fr else fr ++ r.text ++ "\n")
          (processToolUses env.execT (msgs ++ [AMsg.assistant r.text r.toolUses])
            r.toolUses)
        omega

theorem completeTaskLoop_apiCalls_ge (env : AnthropicEnv) (fuel : Nat) :
    ∀ (calls : Nat) (fr : String) (msgs : List AMsg),
      calls ≤ (completeTaskLoop env fuel calls fr msgs).apiCalls := by
  induction fuel with
  | zero => intro calls fr msgs; simp [completeTaskLoop]
  | succ fuel ih =>
    intro calls fr msgs
    cases hapi : env.api calls with
    | apiError m =>
      rw [completeTaskLoop_succ_apiError env fuel calls fr msgs hapi]
      simp only
      omega
    | ok r =>
      by_cases hemp : r.toolUses.isEmpty
      · rw [completeTaskLoop_succ_done env fuel calls fr msgs hapi hemp]
        simp only
        omega
      · rw [completeTaskLoop_succ_tools env fuel calls fr msgs hapi hemp]
        have := ih (calls + 1)
          (if r.text = "" then fr else fr ++ r.text ++ "\n")
          (processToolUses env.execT (msgs ++ [AMsg.assistant r.text r.toolUses])
            r.toolUses)
        omega

theorem completeTaskLoop_apiCalls_lb (env : AnthropicEnv) (fuel calls : Nat)
    (fr : String) (msgs : List AMsg) (h : 1 ≤ fuel) :
    calls + 1 ≤ (completeTaskLoop env fuel calls fr msgs).apiCalls := by
  cases fuel with
  | zero => omega
  | succ fuel =>
    cases hapi : env.api calls with
    | apiError m =>
      rw [completeTaskLoop_succ_apiError env fuel calls fr msgs hapi]
    | ok r =>
      by_cases hemp : r.toolUses.isEmpty
      · rw [completeTaskLoop_succ_done env fuel calls fr msgs hapi hemp]
      · rw [completeTaskLoop_succ_tools env fuel calls fr msgs hapi hemp]
        exact completeTaskLoop_apiCalls_ge env fuel (calls + 1) _ _

theorem completeTaskLoop_msgs_mono (env : AnthropicEnv) (fuel : Nat) :
    ∀ (calls : Nat) (fr : String) (msgs : List AMsg) {m : AMsg}, m ∈ msgs →
      m ∈ (completeTaskLoop env fuel calls fr msgs).messages := by
  induction fuel with
  | zero => intro calls fr msgs m hm; simpa [completeTaskLoop] using hm
  | succ fuel ih =>
    intro calls fr msgs m hm
    cases hapi : env.api calls with
    | apiError me =>
      rw [completeTaskLoop_succ_apiError env fuel calls fr msgs hapi]
      exact hm
    | ok r =>
      by_cases hemp : r.toolUses.isEmpty
      · rw [completeTaskLoop_succ_done env fuel calls fr msgs hapi hemp]
        exact List.mem_append_left _ hm
      · rw [completeTaskLoop_succ_tools env fuel calls fr msgs hapi hemp]
        exact ih (calls + 1) _ _
          (List.mem_append_left _ (List.mem_append_left _ hm))

theorem completeTaskLoop_stops (env : AnthropicEnv) (k : Nat) :
    ∀ (fuel calls : Nat) (fr : String) (msgs : List AMsg) (r : ModelResponse),
      k < fuel →
      (∀ j < k, ∃ rj, env.api (calls + j) = ApiOutcome.ok rj ∧ rj.toolUses ≠ []) →
      env.api (calls + k) = ApiOutcome.ok r → r.toolUses = [] →
      (completeTaskLoop env fuel calls fr msgs).apiCalls = calls + k + 1 := by
  induction k with
  | zero =>
    intro fuel calls fr msgs r hk _ hapi hemp
    cases fuel with
    | zero => omega
    | succ fuel =>
      rw [Nat.add_zero] at hapi
      rw [completeTaskLoop_succ_done env fuel calls fr msgs hapi
        (by rw [hemp]; rfl)]
  | succ k ih =>
    intro fuel calls fr msgs r hk hprev hapi hemp
    cases fuel with
    | zero => omega
    | succ fuel =>
      obtain ⟨r0, hr0, hr0ne⟩ := hprev 0 (Nat.succ_pos k)
      rw [Nat.add_zero] at hr0
      rw [completeTaskLoop_succ_tools env fuel calls fr msgs hr0
        (by simpa [List.isEmpty_iff] using hr0ne)]
      have := ih fuel (calls + 1)
        (if r0.text = "" then fr else fr ++ r0.text ++ "\n")
        (processToolUses env.execT (msgs ++ [AMsg.assistant r0.text r0.toolUses])
          r0.toolUses) r
        (by omega)
        (fun j hj => by
          have := hprev (j + 1) (by omega)
          simpa [Nat.add_assoc, Nat.add_comm 1 j] using this)
        (by rw [show calls + 1 + k = calls + (k + 1) by omega]; exact hapi)
        hemp
      omega

theorem completeTaskLoop_exhausts (env : AnthropicEnv) (fuel : Nat) :
    ∀ (calls : Nat) (fr : String) (msgs : List AMsg),
      (∀ j < fuel, ∃ rj, env.api (calls + j) = ApiOutcome.ok rj ∧ rj.toolUses ≠ []) →
      (completeTaskLoop env fuel calls fr msgs).apiCalls = calls + fuel := by
  induction fuel with
  | zero => intro calls fr msgs _; simp [completeTaskLoop]
  | succ fuel ih =>
    intro calls fr msgs hall
    obtain ⟨r0, hr0, hr0ne⟩ := hall 0 (Nat.succ_pos fuel)
    rw [Nat.add_zero] at hr0
    rw [completeTaskLoop_succ_tools env fuel calls fr msgs hr0
      (by simpa [List.isEmpty_iff] using hr0ne)]
    have := ih (calls + 1)
      (if r0.text = "" then fr else fr ++ r0.text ++ "\n")
      (processToolUses env.execT (msgs ++ [AMsg.assistant r0.text r0.toolUses])
        r0.toolUses)
      (fun j hj => by
        have := hall (j + 1) (by omega)
        simpa [Nat.add_assoc, Nat.add_comm 1 j] using this)
    omega

/-- World identical to `envOneTool` except that the confirmation provider
always denies. -/
def envDeny : ManagerEnv :=
  { client := fun _ => behOneTool, confirm := fun _ _ _ => false }

/-- Claim C10: calling `initializeFromConfig` with an empty
server-configuration object succeeds immediately, attempts no connection,
and leaves the manager state (clients, caches, connection errors)
unchanged. -/
theorem claim_initializeFromConfig_empty_noop (env : ManagerEnv) (s : ManagerState) :
    initializeFromConfig env s [] = (Except.ok (), s)
    ∧ (initRun env s []).attempted = [] :=
  ⟨rfl, rfl⟩

/-- Claim C2: `executeTool` fails with the tool-not-found error when no
cached connection owns the tool; otherwise the confirmation gate is
consulted exactly once before any transport invocation — on denial the call
fails with the execution-denied error and no transport call happens, and
only on approval is the call forwarded to the owning connection (the event
trace lists the side effects in order). -/
theorem claim_executeTool_confirmation_gate (env : ManagerEnv) (s : ManagerState)
    (toolName args : String) (sessionId : Option String) :
    (mget s.toolToClientMap toolName = none →
      executeTool env s toolName args sessionId
        = (Except.error (ToolError.toolNotFound toolName), []))
    ∧ (∀ c, mget s.toolToClientMap toolName = some c →
        env.confirm toolName args sessionId = false →
        executeTool env s toolName args sessionId
          = (Except.error (ToolError.executionDenied toolName sessionId),
             [ExecEvent.confirmRequest toolName args sessionId]))
    ∧ (∀ c, mget s.toolToClientMap toolName = some c →
        env.confirm toolName args sessionId = true →
        executeTool env s toolName args sessionId
          = (Except.ok ((env.client c).callTool toolName args),
             [ExecEvent.confirmRequest toolName args sessionId,
              ExecEvent.transportCall c toolName args])) := by
  refine ⟨fun h => ?_, fun c hc hd => ?_, fun c hc ha => ?_⟩ <;>
    unfold executeTool
  · rw [h]
  · rw [hc]; simp [hd]
  · rw [hc]; simp [ha]

/-- Witness for C2 at concrete inputs: a missing tool, a denied call, and an
approved call, in the one-server world. -/
theorem claim_executeTool_confirmation_gate_witness :
    executeTool envOneTool stateAfterConnectA "missing" "x" none
      = (Except.error (ToolError.toolNotFound "missing"), [])
    ∧ executeTool envDeny stateAfterConnectA "t" "x" none
      = (Except.error (ToolError.executionDenied "t" none),
         [ExecEvent.confirmRequest "t" "x" none])
    ∧ executeTool envOneTool stateAfterConnectA "t" "x" none
      = (Except.ok "ran",
         [ExecEvent.confirmRequest "t" "x" none, ExecEvent.transportCall 0 "t" "x"]) :=
  ⟨(claim_executeTool_confirmation_gate envOneTool stateAfterConnectA "missing" "x" none).1
      (by decide),
   (claim_executeTool_confirmation_gate envDeny stateAfterConnectA "t" "x" none).2.1
      0 (by decide) rfl,
   (claim_executeTool_confirmation_gate envOneTool stateAfterConnectA "t" "x" none).2.2
      0 (by decide) rfl⟩

/-- Claim C7: for every known registry maximum `m > 0`, both budget
computations (`createMessageManager` and the `AnthropicService` constructor)
configure the working input-token budget at `floor(0.9 * m)`, which is
strictly below the advertised maximum. -/
theorem claim_token_budget_margin (m : Nat) (h : 0 < m) :
    createMessageManagerMaxTokens m < m
    ∧ anthropicMaxTokensWithMargin m < m
    ∧ ((createMessageManagerMaxTokens m : ℤ) = ⌊(9 / 10 : ℚ) * (m : ℚ)⌋)
    ∧ ((anthropicMaxTokensWithMargin m : ℤ) = ⌊(9 / 10 : ℚ) * (m : ℚ)⌋) := by
  have hlt : m * 9 / 10 < m := Nat.div_lt_of_lt_mul (by omega)
  have hfloor : ((m * 9 / 10 : ℕ) : ℤ) = ⌊(9 / 10 : ℚ) * (m : ℚ)⌋ := by
    have h1 : (9 / 10 : ℚ) * (m : ℚ) = (((m * 9 : ℕ) : ℤ) : ℚ) / ((10 : ℕ) : ℚ) := by
      push_cast
      ring
    rw [h1, Rat.floor_intCast_div_natCast ((m * 9 : ℕ) : ℤ) 10]
    push_cast
    rfl
  exact ⟨hlt, hlt, hfloor, hfloor⟩

/-- Witness for C7 at the registry maximum 200000 (the budget is 180000). -/
theorem claim_token_budget_margin_witness :
    (0 : Nat) < 200000
    ∧ (createMessageManagerMaxTokens 200000 < 200000
       ∧ anthropicMaxTokensWithMargin 200000 < 200000
       ∧ ((createMessageManagerMaxTokens 200000 : ℤ) = ⌊(9 / 10 : ℚ) * (200000 : ℚ)⌋)
       ∧ ((anthropicMaxTokensWithMargin 200000 : ℤ) = ⌊(9 / 10 : ℚ) * (200000 : ℚ)⌋)) :=
  ⟨by decide, claim_token_budget_margin 200000 (by decide)⟩

/-- Claim C1: every configured server's connection is attempted (no early
cancellation), and after they all settle, initialization fails exactly when
some strict server failed, with an aggregate error naming exactly the failed
strict servers and their recorded causes; lenient failures never make it
fail (the success condition mentions strict servers only). -/
theorem claim_initializeFromConfig_strict_aggregate (env : ManagerEnv)
    (s : ManagerState) (cfgs : SMap McpServerConfig)
    (hnd : (cfgs.map Prod.fst).Nodup) :
    (initRun env s cfgs).attempted = cfgs.map Prod.fst
    ∧ ((initializeFromConfig env s cfgs).1 = Except.ok () ↔
        failedStrictServers (initRun env s cfgs) = [])
    ∧ (failedStrictServers (initRun env s cfgs) ≠ [] →
        (initializeFromConfig env s cfgs).1
          = Except.error ("Failed to connect to required strict servers: "
              ++ strictErrorsMsg (failedStrictServers (initRun env s cfgs))
                  (initRun env s cfgs).state.connectionErrors))
    ∧ (∀ n, n ∈ failedStrictServers (initRun env s cfgs) ↔
        ((∃ cfg, (n, cfg) ∈ cfgs ∧ effectiveMode cfg = ConnectionMode.strict)
          ∧ n ∉ (initRun env s cfgs).successful))
    ∧ (∀ n ∈ failedStrictServers (initRun env s cfgs),
        ∃ e, mget (initRun env s cfgs).state.connectionErrors n = some e) := by
  have hmemchar : ∀ n, n ∈ failedStrictServers (initRun env s cfgs) ↔
      ((∃ cfg, (n, cfg) ∈ cfgs ∧ effectiveMode cfg = ConnectionMode.strict)
        ∧ n ∉ (initRun env s cfgs).successful) := by
    intro n
    unfold failedStrictServers
    rw [List.mem_filter]
    constructor
    · rintro ⟨hstrict, hcond⟩
      rcases (foldl_initStep_strict_mem env cfgs _ n).1 hstrict with hs | hs
      · simp at hs
      · refine ⟨hs, fun hsucc => ?_⟩
        have hcont : (initRun env s cfgs).successful.contains n = true :=
          List.elem_iff.2 hsucc
        rw [hcont] at hcond
        simp at hcond
    · rintro ⟨hex, hns⟩
      refine ⟨(foldl_initStep_strict_mem env cfgs _ n).2 (Or.inr hex), ?_⟩
      have hcont : (initRun env s cfgs).successful.contains n = false := by
        cases hcc : (initRun env s cfgs).successful.contains n with
        | false => rfl
        | true => exact absurd (List.elem_iff.1 hcc) hns
      rw [hcont]
      rfl
  have hattempted : (initRun env s cfgs).attempted = cfgs.map Prod.fst := by
    unfold initRun
    rw [foldl_initStep_attempted]
    rfl
  have hcauses : ∀ n ∈ failedStrictServers (initRun env s cfgs),
      ∃ e, mget (initRun env s cfgs).state.connectionErrors n = some e := by
    intro n hn
    obtain ⟨⟨cfg, hmem, _⟩, hns⟩ := (hmemchar n).1 hn
    exact foldl_initStep_error_recorded env cfgs _ n hnd
      (List.mem_map.2 ⟨(n, cfg), hmem, rfl⟩) hns
  refine ⟨hattempted, ?_, ?_, hmemchar, hcauses⟩
  · cases cfgs with
    | nil =>
      constructor
      · intro _
        rfl
      · intro _
        rfl
    | cons e rest =>
      by_cases hfe : failedStrictServers (initRun env s (e :: rest)) = []
      · have hb : (failedStrictServers (initRun env s (e :: rest))).isEmpty = true :=
          List.isEmpty_iff.2 hfe
        simp [initializeFromConfig, hb, hfe]
      · have hb : (failedStrictServers (initRun env s (e :: rest))).isEmpty = false := by
          cases hq : (failedStrictServers (initRun env s (e :: rest))).isEmpty with
          | false => rfl
          | true => exact absurd (List.isEmpty_iff.1 hq) hfe
        simp [initializeFromConfig, hb, hfe]
  · intro hfe
    cases cfgs with
    | nil =>
      exact absurd rfl hfe
    | cons e rest =>
      have hb : (failedStrictServers (initRun env s (e :: rest))).isEmpty = false := by
        cases hq : (failedStrictServers (initRun env s (e :: rest))).isEmpty with
        | false => rfl
        | true => exact absurd (List.isEmpty_iff.1 hq) hfe
      simp [initializeFromConfig, hb]

/-- Witness for C1: in the `fs`(strict, failing)/`docs`(lenient, succeeding)
scenario, initialization fails with the aggregate error naming `fs` and its
cause. -/
theorem claim_initializeFromConfig_strict_aggregate_witness :
    (initializeFromConfig envFsDocs initialManagerState fsDocsConfigs).1
      = Except.error "Failed to connect to required strict servers: fs: boom" := by
  have h := claim_initializeFromConfig_strict_aggregate envFsDocs initialManagerState
    fsDocsConfigs (by decide)
  rw [h.2.2.1 (by decide)]
  rfl

theorem contains_eq_false_iff (l : List String) (n : String) :
    l.contains n = false ↔ n ∉ l := by
  constructor
  · intro h hm
    have he : l.contains n = true := List.elem_iff.2 hm
    rw [he] at h
    cases h
  · intro h
    cases hc : l.contains n with
    | false => rfl
    | true => exact absurd (List.elem_iff.1 hc) h

theorem mget_of_mem_nodup {β : Type} (cfgs : List (String × β))
    (hnd : (cfgs.map Prod.fst).Nodup) {n : String} {cfg : β}
    (h : (n, cfg) ∈ cfgs) : mget cfgs n = some cfg := by
  induction cfgs with
  | nil => cases h
  | cons e rest ih =>
    rw [List.map_cons, List.nodup_cons] at hnd
    rcases List.mem_cons.1 h with h | h
    · have h1 : e.1 = n := (congrArg Prod.fst h).symm
      have h2 : e.2 = cfg := (congrArg Prod.snd h).symm
      show mget (e :: rest) n = some cfg
      rw [show (e : String × β) = (e.1, e.2) from rfl]
      unfold mget
      rw [if_pos h1, h2]
    · have hne : e.1 ≠ n := by
        intro he
        exact hnd.1 (he ▸ List.mem_map.2 ⟨(n, cfg), h, rfl⟩)
      show mget (e :: rest) n = some cfg
      rw [show (e : String × β) = (e.1, e.2) from rfl]
      unfold mget
      rw [if_neg hne]
      exact ih hnd.2 h

/-- Claim C9 (implicit): a server configuration with no `connectionMode` is
treated as lenient, so when every failing server omits `connectionMode`,
`initializeFromConfig` succeeds and the failures are recorded in the
connection-error map without raising. -/
theorem claim_missing_connectionMode_lenient (env : ManagerEnv) (s : ManagerState)
    (cfgs : SMap McpServerConfig) (hnd : (cfgs.map Prod.fst).Nodup)
    (h : ∀ n ∈ failedServers (initRun env s cfgs),
      ∃ cfg, mget cfgs n = some cfg ∧ cfg.connectionMode = none) :
    (initializeFromConfig env s cfgs).1 = Except.ok ()
    ∧ ∀ n ∈ failedServers (initRun env s cfgs),
        ∃ e, mget (initRun env s cfgs).state.connectionErrors n = some e := by
  have hattempted : (initRun env s cfgs).attempted = cfgs.map Prod.fst := by
    unfold initRun
    rw [foldl_initStep_attempted]
    rfl
  have hfailed_keys : ∀ n ∈ failedServers (initRun env s cfgs),
      n ∈ cfgs.map Prod.fst ∧ n ∉ (initRun env s cfgs).successful := by
    intro n hn
    rw [failedServers, List.mem_filter] at hn
    refine ⟨hattempted ▸ hn.1, ?_⟩
    have := hn.2
    simp only [Bool.not_eq_true'] at this
    exact (contains_eq_false_iff _ n).1 this
  have hrecorded : ∀ n ∈ failedServers (initRun env s cfgs),
      ∃ e, mget (initRun env s cfgs).state.connectionErrors n = some e := by
    intro n hn
    obtain ⟨hk, hns⟩ := hfailed_keys n hn
    exact foldl_initStep_error_recorded env cfgs _ n hnd hk hns
  have hfs : failedStrictServers (initRun env s cfgs) = [] := by
    rw [List.eq_nil_iff_forall_not_mem]
    intro n hn
    rw [failedStrictServers, List.mem_filter] at hn
    rcases (foldl_initStep_strict_mem env cfgs _ n).1 hn.1 with hs | hs
    · simp at hs
    · obtain ⟨cfg0, hmem0, hmode0⟩ := hs
      have hnfailed : n ∈ failedServers (initRun env s cfgs) := by
        rw [failedServers, List.mem_filter]
        exact ⟨hattempted ▸ List.mem_map.2 ⟨(n, cfg0), hmem0, rfl⟩, hn.2⟩
      obtain ⟨cfg1, hget1, hnone1⟩ := h n hnfailed
      have : cfg0 = cfg1 := by
        have := mget_of_mem_nodup cfgs hnd hmem0
        rw [this] at hget1
        exact Option.some.inj hget1
      rw [this, effectiveMode, hnone1] at hmode0
      cases hmode0
  refine ⟨?_, hrecorded⟩
  cases cfgs with
  | nil => rfl
  | cons e rest =>
    have hb : (failedStrictServers (initRun env s (e :: rest))).isEmpty = true :=
      List.isEmpty_iff.2 hfs
    simp [initializeFromConfig, hb]

/-- World where every client fails to connect. -/
def envAllFail : ManagerEnv :=
  { client := fun _ => behConnectFail, confirm := fun _ _ _ => true }

/-- A single server `w` that omits `connectionMode`. -/
def cfgsNoMode : SMap McpServerConfig := [("w", { connectionMode := none })]

/-- Witness for C9: the single mode-less server `w` fails to connect, yet
initialization succeeds and the failure is recorded. -/
theorem claim_missing_connectionMode_lenient_witness :
    (initializeFromConfig envAllFail initialManagerState cfgsNoMode).1 = Except.ok ()
    ∧ ∀ n ∈ failedServers (initRun envAllFail initialManagerState cfgsNoMode),
        ∃ e, mget (initRun envAllFail initialManagerState cfgsNoMode).state.connectionErrors n
          = some e :=
  claim_missing_connectionMode_lenient envAllFail initialManagerState cfgsNoMode
    (by decide)
    (by
      intro n hn
      have hw : failedServers (initRun envAllFail initialManagerState cfgsNoMode)
          = ["w"] := by decide
      rw [hw] at hn
      rw [List.mem_singleton.1 hn]
      exact ⟨{ connectionMode := none }, by decide, rfl⟩)

/-- Claim C3 exhibit: connect server `a` owning tool `t`, then
`removeClient("a")`.  The client is gone from `clients` (and removing an
absent name is a no-op), but the tool cache still references the removed
client: `removeClient` deletes the name from `clients` before calling
`clearClientCache`, whose lookup of the name then fails, so no cache entry
is ever purged.  `disconnectAll` does clear all three caches. -/
theorem removeClient_leaves_stale_cache_entry :
    stateAfterRemoveA.clients = []
    ∧ mget stateAfterRemoveA.toolToClientMap "t" = some 0
    ∧ removeClient initialManagerState "zzz" = initialManagerState
    ∧ (disconnectAll stateAfterRemoveA).toolToClientMap = []
    ∧ (disconnectAll stateAfterRemoveA).promptToClientMap = []
    ∧ (disconnectAll stateAfterRemoveA).resourceToClientMap = [] := by
  refine ⟨rfl, ?_, rfl, rfl, rfl, rfl⟩
  decide

/-- Claim C6 exhibit: in the same post-removal state, `getAllTools` still
returns the removed server's tool `t`, while the union over still-registered
servers (the spec-side reading) is empty — the two disagree because of the
stale cache entry left by `removeClient`. -/
theorem getAllTools_reports_removed_server_tools :
    stateAfterRemoveA.clients = []
    ∧ getAllTools envOneTool stateAfterRemoveA
        = Except.ok [("t", { description := "d" })]
    ∧ specStillConnectedTools envOneTool stateAfterRemoveA = []
    ∧ getAllTools envOneTool stateAfterRemoveA
        ≠ Except.ok (specStillConnectedTools envOneTool stateAfterRemoveA) := by
  refine ⟨rfl, rfl, rfl, fun h => ?_⟩
  have h1 : getAllTools envOneTool stateAfterRemoveA
      = Except.ok [("t", { description := "d" })] := rfl
  have h2 : specStillConnectedTools envOneTool stateAfterRemoveA = [] := rfl
  rw [h1, h2] at h
  have h3 : ([("t", ({ description := "d" } : ToolDef))] : SMap ToolDef) = [] :=
    Except.ok.inj h
  cases h3

theorem connectServer_fail_shape (env : ManagerEnv) (s : ManagerState)
    (name : String) (cfg : McpServerConfig)
    (hc : mcontains s.clients name = false)
    (hok : (env.client s.nextClientId).connectOk = false) :
    connectServer env s name cfg
      = (Except.error ("Failed to connect to new server " ++ name ++ ": "
           ++ (env.client s.nextClientId).connectErr),
         { s with nextClientId := s.nextClientId + 1,
                  connectionErrors := mset s.connectionErrors name
                    (env.client s.nextClientId).connectErr,
                  clients := mdel s.clients name }) := by
  unfold connectServer
  simp [hc, hok]

theorem connectServer_ok_shape (env : ManagerEnv) (s : ManagerState)
    (name : String) (cfg : McpServerConfig)
    (hc : mcontains s.clients name = false)
    (hok : (env.client s.nextClientId).connectOk = true) :
    connectServer env s name cfg
      = (Except.ok (),
         updateClientCache env
           (registerClient { s with nextClientId := s.nextClientId + 1 }
             name s.nextClientId)
           s.nextClientId) := by
  unfold connectServer
  simp [hc, hok]

theorem updateClientCache_toolToClientMap (env : ManagerEnv) (s : ManagerState)
    (c : Nat) (h : (env.client c).toolsOk = true) :
    (updateClientCache env s c).toolToClientMap
      = cacheTools s.toolToClientMap (env.client c).tools c := by
  unfold updateClientCache
  by_cases h2 : (env.client c).promptsOk <;>
    by_cases h3 : (env.client c).resourcesOk <;>
    simp [h, h2, h3]

theorem registerClient_toolToClientMap (s : ManagerState) (name : String) (c : Nat) :
    (registerClient s name c).toolToClientMap
      = (clearClientCache s name).toolToClientMap := by
  unfold registerClient
  simp

theorem initializeFromConfig_snd (env : ManagerEnv) (s : ManagerState)
    (e : String × McpServerConfig) (rest : SMap McpServerConfig) :
    (initializeFromConfig env s (e :: rest)).2 = (initRun env s (e :: rest)).state := by
  unfold initializeFromConfig
  by_cases hb : (failedStrictServers (initRun env s (e :: rest))).isEmpty <;> simp [hb]

theorem initializeFromConfig_fst_error (env : ManagerEnv) (s : ManagerState)
    (e : String × McpServerConfig) (rest : SMap McpServerConfig)
    (h : failedStrictServers (initRun env s (e :: rest)) ≠ []) :
    ∃ msg, (initializeFromConfig env s (e :: rest)).1 = Except.error msg := by
  have hb : (failedStrictServers (initRun env s (e :: rest))).isEmpty = false := by
    cases hq : (failedStrictServers (initRun env s (e :: rest))).isEmpty with
    | false => rfl
    | true => exact absurd (List.isEmpty_iff.1 hq) h
  unfold initializeFromConfig
  simp [hb]

/-- Counterexample to claim C4 as stated: in the `fs`(strict, failing) /
`docs`(lenient, succeeding with tool `t`) scenario, initialization does
throw the aggregate error, but `docs`'s tool `t` is NOT discarded — it stays
in the tool cache, owned by the `docs` client. -/
theorem fsDocs_lenient_tools_not_discarded :
    fsDocsInit.1 = Except.error "Failed to connect to required strict servers: fs: boom"
    ∧ mget fsDocsInit.2.toolToClientMap "t" = some 1
    ∧ mget fsDocsInit.2.clients "docs" = some 1 := by
  refine ⟨rfl, ?_, ?_⟩ <;> decide

/-- Claim C4 as amended: (1) a failed `connectServer(name, config)` records
the error keyed by the name, leaves the name unregistered, and leaves all
three capability caches exactly as they were (no partial entries); but
(2) when `initializeFromConfig` aborts because a strict server failed, the
tools of lenient servers that connected successfully during the same call
REMAIN cached (they are not discarded). -/
theorem claim_connect_failure_no_partial_state_amended :
    (∀ (env : ManagerEnv) (s : ManagerState) (name : String) (cfg : McpServerConfig)
        (msg : String),
      (connectServer env s name cfg).1 = Except.error msg →
        mget (connectServer env s name cfg).2.connectionErrors name
            = some (env.client s.nextClientId).connectErr
        ∧ mget (connectServer env s name cfg).2.clients name = none
        ∧ (connectServer env s name cfg).2.toolToClientMap = s.toolToClientMap
        ∧ (connectServer env s name cfg).2.promptToClientMap = s.promptToClientMap
        ∧ (connectServer env s name cfg).2.resourceToClientMap = s.resourceToClientMap)
    ∧ (∀ (env : ManagerEnv) (t : String),
        (env.client 0).connectOk = false →
        (env.client 1).connectOk = true →
        (env.client 1).toolsOk = true →
        t ∈ (env.client 1).tools.map Prod.fst →
        (∃ msg, (initializeFromConfig env initialManagerState
            [("fs", { connectionMode := some ConnectionMode.strict }),
             ("docs", { connectionMode := some ConnectionMode.lenient })]).1
          = Except.error msg)
        ∧ mget (initializeFromConfig env initialManagerState
            [("fs", { connectionMode := some ConnectionMode.strict }),
             ("docs", { connectionMode := some ConnectionMode.lenient })]).2.toolToClientMap t
          = some 1) := by
  constructor
  · intro env s name cfg msg herr
    cases hc : mcontains s.clients name with
    | true =>
      unfold connectServer at herr
      simp [hc] at herr
    | false =>
      cases hok : (env.client s.nextClientId).connectOk with
      | true =>
        unfold connectServer at herr
        simp [hc, hok] at herr
      | false =>
        rw [connectServer_fail_shape env s name cfg hc hok]
        exact ⟨mget_mset_self _ name _, mget_mdel_self _ name, rfl, rfl, rfl⟩
  · intro env t h0 h1 htools hmem
    have hstep1 : initStep env (⟨initialManagerState, [], [], [], []⟩ : InitRun)
        ("fs", { connectionMode := some ConnectionMode.strict })
        = ⟨{ clients := [], connectionErrors := [("fs", (env.client 0).connectErr)],
             toolToClientMap := [], promptToClientMap := [],
             resourceToClientMap := [], nextClientId := 1 },
           [], ["fs"], [], ["fs"]⟩ := by
      simp [initStep, connectServer, effectiveMode, initialManagerState,
        mcontains, mset, mdel, h0]
    have h2 := connectServer_ok_shape env
      { clients := [], connectionErrors := [("fs", (env.client 0).connectErr)],
        toolToClientMap := [], promptToClientMap := [],
        resourceToClientMap := [], nextClientId := 1 }
      "docs" { connectionMode := some ConnectionMode.lenient } rfl h1
    have hrunshow : initRun env initialManagerState
        [("fs", { connectionMode := some ConnectionMode.strict }),
         ("docs", { connectionMode := some ConnectionMode.lenient })]
        = initStep env
            (initStep env (⟨initialManagerState, [], [], [], []⟩ : InitRun)
              ("fs", { connectionMode := some ConnectionMode.strict }))
            ("docs", { connectionMode := some ConnectionMode.lenient }) := rfl
    have htool2 : (initRun env initialManagerState
        [("fs", { connectionMode := some ConnectionMode.strict }),
         ("docs", { connectionMode := some ConnectionMode.lenient })]).state.toolToClientMap
        = cacheTools [] (env.client 1).tools 1 := by
      rw [hrunshow, hstep1, initStep_state]
      rw [h2]
      rw [updateClientCache_toolToClientMap env _ _ htools]
      rfl
    have hsucc2 : (initRun env initialManagerState
        [("fs", { connectionMode := some ConnectionMode.strict }),
         ("docs", { connectionMode := some ConnectionMode.lenient })]).successful
        = ["docs"] := by
      rw [hrunshow, hstep1, initStep_successful]
      rw [h2]
      simp
    have hstrict2 : (initRun env initialManagerState
        [("fs", { connectionMode := some ConnectionMode.strict }),
         ("docs", { connectionMode := some ConnectionMode.lenient })]).strictServers
        = ["fs"] := by
      rw [hrunshow, hstep1, initStep_strictServers]
      simp [effectiveMode]
    have hfailed : failedStrictServers (initRun env initialManagerState
        [("fs", { connectionMode := some ConnectionMode.strict }),
         ("docs", { connectionMode := some ConnectionMode.lenient })]) = ["fs"] := by
      unfold failedStrictServers
      rw [hstrict2, hsucc2]
      decide
    constructor
    · exact initializeFromConfig_fst_error env initialManagerState _ _
        (by rw [hfailed]; decide)
    · rw [initializeFromConfig_snd, htool2]
      exact mget_cacheTools_of_mem [] (env.client 1).tools 1 hmem

/-- Witness for the amended C4: a concrete failing `connectServer` leaves no
partial state, and the concrete `fs`/`docs` scenario retains `docs`'s tool
`t` in the cache while aborting. -/
theorem claim_connect_failure_no_partial_state_amended_witness :
    (mget (connectServer envAllFail initialManagerState "w"
          { connectionMode := none }).2.connectionErrors "w" = some "boom"
      ∧ mget (connectServer envAllFail initialManagerState "w"
          { connectionMode := none }).2.clients "w" = none
      ∧ (connectServer envAllFail initialManagerState "w"
          { connectionMode := none }).2.toolToClientMap
          = initialManagerState.toolToClientMap
      ∧ (connectServer envAllFail initialManagerState "w"
          { connectionMode := none }).2.promptToClientMap
          = initialManagerState.promptToClientMap
      ∧ (connectServer envAllFail initialManagerState "w"
          { connectionMode := none }).2.resourceToClientMap
          = initialManagerState.resourceToClientMap)
    ∧ ((∃ msg, (initializeFromConfig envFsDocs initialManagerState
          [("fs", { connectionMode := some ConnectionMode.strict }),
           ("docs", { connectionMode := some ConnectionMode.lenient })]).1
        = Except.error msg)
      ∧ mget (initializeFromConfig envFsDocs initialManagerState
          [("fs", { connectionMode := some ConnectionMode.strict }),
           ("docs", { connectionMode := some ConnectionMode.lenient })]).2.toolToClientMap "t"
        = some 1) :=
  ⟨claim_connect_failure_no_partial_state_amended.1 envAllFail initialManagerState
      "w" { connectionMode := none } "Failed to connect to new server w: boom" rfl,
   claim_connect_failure_no_partial_state_amended.2 envFsDocs "t"
      rfl rfl rfl (by decide)⟩

/-- Claim C8: the `completeTask` tool-call loop terminates: it never makes
more than `MAX_ITERATIONS` (10) API calls; when the k-th response is the
first without tool calls it returns right after that call; and when every
response keeps requesting tools it stops at exactly the step limit and
returns the best-effort response instead of looping further. -/
theorem claim_completeTask_terminates (env : AnthropicEnv) (userInput : String) :
    (completeTask env userInput).apiCalls ≤ MAX_ITERATIONS
    ∧ (∀ k r, k < MAX_ITERATIONS →
        (∀ j < k, ∃ rj, env.api j = ApiOutcome.ok rj ∧ rj.toolUses ≠ []) →
        env.api k = ApiOutcome.ok r → r.toolUses = [] →
        (completeTask env userInput).apiCalls = k + 1)
    ∧ ((∀ j < MAX_ITERATIONS, ∃ rj, env.api j = ApiOutcome.ok rj ∧ rj.toolUses ≠ []) →
        (completeTask env userInput).apiCalls = MAX_ITERATIONS) := by
  refine ⟨?_, ?_, ?_⟩
  · have h := completeTaskLoop_apiCalls_le env MAX_ITERATIONS 0 "" [AMsg.user userInput]
    simpa [completeTask] using h
  · intro k r hk hprev hapi hemp
    have h := completeTaskLoop_stops env k MAX_ITERATIONS 0 "" [AMsg.user userInput] r hk
      (by simpa using hprev) (by simpa using hapi) hemp
    simpa [completeTask] using h
  · intro hall
    have h := completeTaskLoop_exhausts env MAX_ITERATIONS 0 "" [AMsg.user userInput]
      (by simpa using hall)
    simpa [completeTask] using h

/-- World whose first response requests one tool call which is denied, and
whose second response is final. -/
def envToolDenied : AnthropicEnv :=
  { api := fun i =>
      if i = 0 then
        ApiOutcome.ok { text := "a", toolUses := [{ id := "id1", name := "t", input := "x" }] }
      else ApiOutcome.ok { text := "done", toolUses := [] },
    execT := fun _ _ => ToolPayload.errorResult "denied" }

/-- Witness for C8: in `envToolDenied`, the loop stops after exactly two API
calls, within the step limit. -/
theorem claim_completeTask_terminates_witness :
    (completeTask envToolDenied "hi").apiCalls ≤ MAX_ITERATIONS
    ∧ (completeTask envToolDenied "hi").apiCalls = 2 :=
  ⟨(claim_completeTask_terminates envToolDenied "hi").1,
   (claim_completeTask_terminates envToolDenied "hi").2.1 1 { text := "done", toolUses := [] }
     (by decide)
     (by
       intro j hj
       have hj0 : j = 0 := by omega
       subst hj0
       exact ⟨{ text := "a", toolUses := [{ id := "id1", name := "t", input := "x" }] },
         rfl, by decide⟩)
     rfl rfl⟩

/-- Claim C5: a denied, timed-out or failed tool execution becomes an
ordinary tool-result payload and never escapes the turn: the Vercel execute
wrapper maps `EXECUTION_DENIED` to `{error, denied: true}`,
`CONFIRMATION_TIMEOUT` to `{error, denied: true, timeout: true}` and every
other failure to `{error}`; in the Anthropic driving loop every tool use of
a response — including ones whose execution throws — produces an
`addToolResult` entry in the conversation and the loop continues to the next
API call. -/
theorem claim_tool_failure_becomes_result :
    (∀ m, vercelExecuteWrap (VercelToolOutcome.runtimeError ToolErrorCode.EXECUTION_DENIED m)
        = WrappedToolResult.errorPayload m true false)
    ∧ (∀ m, vercelExecuteWrap (VercelToolOutcome.runtimeError ToolErrorCode.CONFIRMATION_TIMEOUT m)
        = WrappedToolResult.errorPayload m true true)
    ∧ (∀ c m, c ≠ ToolErrorCode.EXECUTION_DENIED → c ≠ ToolErrorCode.CONFIRMATION_TIMEOUT →
        vercelExecuteWrap (VercelToolOutcome.runtimeError c m)
          = WrappedToolResult.errorPayload m false false)
    ∧ (∀ m, vercelExecuteWrap (VercelToolOutcome.otherError m)
        = WrappedToolResult.errorPayload m false false)
    ∧ (∀ (env : AnthropicEnv) (input : String) (r : ModelResponse),
        env.api 0 = ApiOutcome.ok r → r.toolUses ≠ [] →
        (∀ tu ∈ r.toolUses,
          AMsg.toolResult tu.id tu.name (env.execT tu.name tu.input)
            ∈ (completeTask env input).messages)
        ∧ 2 ≤ (completeTask env input).apiCalls) := by
  refine ⟨fun m => rfl, fun m => rfl, fun c m hc1 hc2 => ?_, fun m => rfl, ?_⟩
  · show (if c = ToolErrorCode.EXECUTION_DENIED then WrappedToolResult.errorPayload m true false
      else if c = ToolErrorCode.CONFIRMATION_TIMEOUT then WrappedToolResult.errorPayload m true true
      else WrappedToolResult.errorPayload m false false)
        = WrappedToolResult.errorPayload m false false
    rw [if_neg hc1, if_neg hc2]
  · intro env input r hapi hne
    have hne' : ¬ r.toolUses.isEmpty := by simpa [List.isEmpty_iff] using hne
    have hstep : completeTask env input
        = completeTaskLoop env 9 1
            (if r.text = "" then "" else "" ++ r.text ++ "\n")
            (processToolUses env.execT
              ([AMsg.user input] ++ [AMsg.assistant r.text r.toolUses]) r.toolUses) := by
      show completeTaskLoop env MAX_ITERATIONS 0 "" [AMsg.user input] = _
      rw [show MAX_ITERATIONS = 9 + 1 from rfl]
      exact completeTaskLoop_succ_tools env 9 0 "" [AMsg.user input] hapi hne'
    constructor
    · intro tu htu
      rw [hstep]
      apply completeTaskLoop_msgs_mono
      unfold processToolUses
      exact List.mem_append_right _ (List.mem_map.2 ⟨tu, htu, rfl⟩)
    · rw [hstep]
      have h := completeTaskLoop_apiCalls_lb env 9 1
        (if r.text = "" then "" else "" ++ r.text ++ "\n")
        (processToolUses env.execT
          ([AMsg.user input] ++ [AMsg.assistant r.text r.toolUses]) r.toolUses)
        (by omega)
      omega

/-- Witness for C5: the wrapper's denial payload at a concrete message, and
in `envToolDenied` the denied execution shows up as a tool-result message
while the loop still reaches the second API call. -/
theorem claim_tool_failure_becomes_result_witness :
    vercelExecuteWrap (VercelToolOutcome.runtimeError ToolErrorCode.EXECUTION_DENIED "no")
      = WrappedToolResult.errorPayload "no" true false
    ∧ AMsg.toolResult "id1" "t" (ToolPayload.errorResult "denied")
        ∈ (completeTask envToolDenied "hi").messages
    ∧ 2 ≤ (completeTask envToolDenied "hi").apiCalls := by
  have h := claim_tool_failure_becomes_result.2.2.2.2 envToolDenied "hi"
    { text := "a", toolUses := [{ id := "id1", name := "t", input := "x" }] }
    rfl (by decide)
  exact ⟨claim_tool_failure_becomes_result.1 "no",
    h.1 { id := "id1", name := "t", input := "x" } (by decide), h.2⟩

end Saiki
